import Mathlib

set_option maxHeartbeats 1000000

namespace AiCoderHelper

/-! Path helpers, modelling the Node path module on POSIX: paths are lists of
components, joined with the forward-slash separator. -/

/-- Join a list of path components with the forward-slash separator,
as Array.prototype.join with separator does in the source. -/
def joinSep (sep : String) : List String → String
  | [] => ""
  | [s] => s
  | s :: rest => s ++ sep ++ joinSep sep rest

/-- joinSep specialised to the POSIX separator used by path.join/path.sep. -/
def joinSlash (l : List String) : String := joinSep "/" l

/-- Remove the longest common prefix of two component lists
(the shared ancestor directories), as path.relative of Node does
after resolving both paths. -/
def sharedSplit : List String → List String → List String × List String
  | a :: as, b :: bs =>
    if a = b then sharedSplit as bs else (a :: as, b :: bs)
  | as, bs => (as, bs)

/-- path.relative of Node over component lists: drop the common ancestor,
one double-dot step per remaining source component, then the remaining
target components, joined with the separator. -/
def pathRelative (f t : List String) : String :=
  joinSlash ((sharedSplit f t).1.map (fun _ => "..") ++ (sharedSplit f t).2)

/-- Split a character list on the slash character, keeping empty segments,
as String.prototype.split(path.sep) does. -/
def splitCharsOnSlash : List Char → List (List Char)
  | [] => [[]]
  | c :: rest =>
    if c = '/' then [] :: splitCharsOnSlash rest
    else
      match splitCharsOnSlash rest with
      | s :: ss => (c :: s) :: ss
      | [] => [[c]]

/-- String.prototype.split(path.sep) on a POSIX path string. -/
def splitSlash (s : String) : List String :=
  (splitCharsOnSlash s.data).map String.mk

/-- file.startsWith in the source, applied to the hidden-entry marker dot. -/
def startsWithDot (s : String) : Bool :=
  match s.data with
  | c :: _ => c == '.'
  | [] => false

end AiCoderHelper

namespace AiCoderHelper

/-- Suffix of the list from its last dot character (inclusive), if any. -/
def afterLastDot : List Char → Option (List Char)
  | [] => none
  | c :: rest =>
    match afterLastDot rest with
    | some t => some t
    | none => if c = '.' then some (c :: rest) else none

/-- path.extname of Node on a basename: from the last dot to the end,
empty when there is no dot or the only dot is the leading one. -/
def extname (b : String) : String :=
  match b.data with
  | [] => ""
  | _ :: rest =>
    match afterLastDot rest with
    | some t => String.mk t
    | none => ""

/-- languageMap from the source: extension or basename keys to labels. -/
def languageMap : List (String × String) :=
  [(".js", "JavaScript"), (".ts", "TypeScript"), (".tsx", "TSX"),
   (".jsx", "JSX"), (".py", "Python"), (".java", "Java"), (".rb", "Ruby"),
   (".cpp", "C++"), (".c", "C"), (".cs", "C#"), (".php", "PHP"),
   (".html", "HTML"), (".css", "CSS"), (".json", "JSON"), (".txt", "Text"),
   (".md", "Markdown"), (".gitattributes", "Git"), (".prettierrc", "JSON"),
   ("Pipfile", "Python"), ("Pipfile.lock", "Python")]

/-- getLanguage from the source: look the extension up, fall back to the
basename, else the Unknown label. -/
def getLanguage (fullPath : List String) : String :=
  match languageMap.lookup (extname (fullPath.getLastD "")) with
  | some l => l
  | none =>
    match languageMap.lookup (fullPath.getLastD "") with
    | some l => l
    | none => "Unknown"

/-! The FileMetadata record built by collectFileMetadata, field for field. -/

structure FileMetadata where
  fileName : String
  filePath : String
  lastModified : String
  fileSize : Nat
  language : String
  hierarchy : List String
  repoName : String
deriving DecidableEq, Repr

/-- collectFileMetadata from the source: stat the file; on success build the
record (filePath and hierarchy are relative to the process working directory
cwd, hierarchy is that relative path split on the separator with the last
component dropped); on a stat failure catch, log and return undefined. -/
def collectFileMetadata (cwd : List String) (fullPath : List String)
    (size : Nat) (mtime : String) (statOk : Bool) (repoName : String) :
    Option FileMetadata :=
  if statOk then
    some ⟨fullPath.getLastD "",
          pathRelative cwd fullPath,
          mtime,
          size,
          getLanguage fullPath,
          (splitSlash (pathRelative cwd fullPath)).dropLast,
          repoName⟩
  else
    none

/-- The template-literal comment block built inside
copyFileWithMetadataComments, one labelled line per metadata field. -/
def metadataComment (m : FileMetadata) : String :=
  "\n/*\n" ++
  (" * Project Name: " ++ (m.repoName ++ "\n")) ++
  (" * File Name: " ++ (m.fileName ++ "\n")) ++
  (" * File Size: " ++ (toString m.fileSize ++ " bytes\n")) ++
  (" * Last Modified: " ++ (m.lastModified ++ "\n")) ++
  (" * Language: " ++ (m.language ++ "\n")) ++
  (" * Hierarchy: " ++ (joinSep " > " m.hierarchy ++ "\n")) ++
  (" * Start of file: " ++ (m.filePath ++ "\n")) ++
  " */"

/-- copyFileWithMetadataComments from the source: the content written to the
destination is the comment block, a newline, the original file content, and
the end-of-file comment carrying the relative path. -/
def copyFileWithMetadataComments (fileContent : String) (m : FileMetadata) :
    String :=
  metadataComment m ++ ("\n" ++ fileContent ++
    ("\n/* End of file: " ++ m.filePath ++ " */"))

/-! The source tree, as the traversals observe it through readdir and stat.
A file node carries its content, stat data, and whether the second stat that
collectFileMetadata performs succeeds (statOk = false models StatError). -/

mutual
inductive FSEntry where
  | file (name content : String) (size : Nat) (mtime : String) (statOk : Bool)
  | dir (name : String) (children : FSList)
inductive FSList where
  | nil
  | cons (e : FSEntry) (es : FSList)
end

/-- A write performed into the mirror tree: a directory creation or a file
write with the written content. -/
inductive MirrorWrite where
  | mkdir (path : List String)
  | fileWrite (path : List String) (content : String)
deriving DecidableEq, Repr

mutual
/-- One loop iteration of createMirrorDirectoryStructure for a child of
srcDir: the tested relativePath is path.relative(srcDir, srcFilePath), which
is the bare name of the child. A directory is skipped when its name starts with a
dot or the ignore predicate holds of the name; a file is skipped when the
ignore predicate holds of the name. For a kept file, collectFileMetadata
runs; when it returns undefined, copyFileWithMetadataComments throws on the
field access, catches, and writes nothing. -/
def mirrorVisit (ign : String → Bool) (cwd : List String) (repoName : String)
    (srcDir destDir : List String) : FSEntry → List MirrorWrite
  | .file name content size mtime statOk =>
    if ign name then []
    else
      match collectFileMetadata cwd (srcDir ++ [name]) size mtime statOk
          repoName with
      | some m =>
        [.fileWrite (destDir ++ [name]) (copyFileWithMetadataComments content m)]
      | none => []
  | .dir name children =>
    if startsWithDot name || ign name then []
    else
      .mkdir (destDir ++ [name]) ::
        mirrorList ign cwd repoName (srcDir ++ [name]) (destDir ++ [name])
          children
/-- The for-loop of createMirrorDirectoryStructure over the readdir listing. -/
def mirrorList (ign : String → Bool) (cwd : List String) (repoName : String)
    (srcDir destDir : List String) : FSList → List MirrorWrite
  | .nil => []
  | .cons e es =>
    mirrorVisit ign cwd repoName srcDir destDir e ++
      mirrorList ign cwd repoName srcDir destDir es
end

/-- createMirrorDirectoryStructure from the source: make the destination
directory, then process each listed child. -/
def createMirrorDirectoryStructure (ign : String → Bool) (cwd : List String)
    (repoName : String) (srcDir destDir : List String) (children : FSList) :
    List MirrorWrite :=
  .mkdir destDir :: mirrorList ign cwd repoName srcDir destDir children

/-- The mutable state of collectCodebaseMetadata: the allMetadata array (an
entry is none when the undefined result of a failed collectFileMetadata was
pushed) and the fileCount counter. -/
structure TravState where
  allMetadata : List (Option FileMetadata)
  fileCount : Nat
deriving DecidableEq, Repr

mutual
/-- One loop iteration of the nested traverse function of
collectCodebaseMetadata: here the tested relativePath is
path.relative(dirPath, fullPath), relative to the traversal root dirPath.
A directory whose name starts with a dot is skipped first; then the ignore
predicate is consulted; for a kept file the collectFileMetadata result is pushed
onto allMetadata unconditionally and fileCount is incremented. -/
def traverseVisit (ign : String → Bool) (cwd : List String)
    (repoName : String) (dirPath : List String) (currentPath : List String) :
    FSEntry → TravState → TravState
  | .file name _ size mtime statOk, st =>
    if ign (pathRelative dirPath (currentPath ++ [name])) then st
    else
      ⟨st.allMetadata ++
         [collectFileMetadata cwd (currentPath ++ [name]) size mtime statOk
            repoName],
       st.fileCount + 1⟩
  | .dir name children, st =>
    if startsWithDot name then st
    else if ign (pathRelative dirPath (currentPath ++ [name])) then st
    else
      traverseList ign cwd repoName dirPath (currentPath ++ [name]) children
        st
/-- The for-loop of traverse over the readdir listing. -/
def traverseList (ign : String → Bool) (cwd : List String)
    (repoName : String) (dirPath : List String) (currentPath : List String) :
    FSList → TravState → TravState
  | .nil, st => st
  | .cons e es, st =>
    traverseList ign cwd repoName dirPath currentPath es
      (traverseVisit ign cwd repoName dirPath currentPath e st)
end

/-- collectCodebaseMetadata from the source: run traverse from the root with
an empty allMetadata array and a zero fileCount. -/
def collectCodebaseMetadata (ign : String → Bool) (cwd : List String)
    (repoName : String) (dirPath : List String) (children : FSList) :
    TravState :=
  traverseList ign cwd repoName dirPath dirPath children ⟨[], 0⟩

/-! The ignore ruleset construction of loadGitignore in scrape_repo.js. -/

/-- scriptFileName constant from the source. -/
def scriptFileName : String := "scrape_repo.js"

/-- metadataFileName constant from the source. -/
def metadataFileName : String := "repo_metadata.json"

/-- The custom patterns loadGitignore adds after the optional ignore file:
the array literal passed to ig.add. -/
def builtinIgnoreEntries : List String :=
  ["mirror_repo", "node_modules", "public", scriptFileName, metadataFileName]

/-- Split a character list on the newline character, keeping segments. -/
def splitCharsOnNewline : List Char → List (List Char)
  | [] => [[]]
  | c :: rest =>
    if c = '\n' then [] :: splitCharsOnNewline rest
    else
      match splitCharsOnNewline rest with
      | s :: ss => (c :: s) :: ss
      | [] => [[c]]

/-- The pattern lines the ignore library stores for an added file content:
the content split on line breaks. -/
def splitLines (s : String) : List String :=
  (splitCharsOnNewline s.data).map String.mk

/-- The outcome of reading the ignore-pattern file at the source root. -/
inductive GitignoreRead where
  | ok (content : String)
  | enoent
  | otherErr (msg : String)
deriving DecidableEq, Repr

/-- The user pattern lines contributed by the read outcome: the lines of the file
when the read succeeded, nothing otherwise. -/
def userLines : GitignoreRead → List String
  | .ok c => splitLines c
  | .enoent => []
  | .otherErr _ => []

/-- loadGitignore from scrape_repo.js as an ordered pattern list: try to read
the ignore file and add its lines; a missing file (ENOENT) is silently
tolerated and any other read error is only logged; in every case the custom
entries are added afterwards and the ruleset is returned. -/
def loadGitignore : GitignoreRead → Except String (List String)
  | .ok c => .ok (splitLines c ++ builtinIgnoreEntries)
  | .enoent => .ok builtinIgnoreEntries
  | .otherErr _ => .ok builtinIgnoreEntries

end AiCoderHelper

namespace AiCoderHelper

/-! Derived observations on traversal outputs, and structural helpers. -/

/-- The destination paths of the file writes in a mirror write log, in
order. -/
def fileWritePaths : List MirrorWrite → List (List String)
  | [] => []
  | .mkdir _ :: rest => fileWritePaths rest
  | .fileWrite p _ :: rest => p :: fileWritePaths rest

mutual
/-- Every file in the subtree can be statted a second time by
collectFileMetadata (no StatError anywhere). -/
def FSEntry.statAll : FSEntry → Bool
  | .file _ _ _ _ ok => ok
  | .dir _ cs => FSList.statAll cs
/-- FSEntry.statAll over a listing. -/
def FSList.statAll : FSList → Bool
  | .nil => true
  | .cons e es => FSEntry.statAll e && FSList.statAll es
end

mutual
/-- Every entry name in the subtree is a plain directory-listing name,
free of the path separator. -/
def FSEntry.namesOk : FSEntry → Bool
  | .file n _ _ _ _ => !(n.data.contains '/')
  | .dir n cs => !(n.data.contains '/') && FSList.namesOk cs
/-- FSEntry.namesOk over a listing. -/
def FSList.namesOk : FSList → Bool
  | .nil => true
  | .cons e es => FSEntry.namesOk e && FSList.namesOk es
end

/-- Mutual induction principle for the source tree and its listings. -/
theorem fs_mutual_ind (Pe : FSEntry → Prop) (Pl : FSList → Prop)
    (h1 : ∀ n c s m ok, Pe (.file n c s m ok))
    (h2 : ∀ n cs, Pl cs → Pe (.dir n cs))
    (h3 : Pl .nil)
    (h4 : ∀ e es, Pe e → Pl es → Pl (.cons e es)) :
    (∀ e, Pe e) ∧ ∀ l, Pl l :=
  ⟨fun e => @FSEntry.rec Pe Pl h1 h2 h3 h4 e,
   fun l => @FSList.rec Pe Pl h1 h2 h3 h4 l⟩

theorem fileWritePaths_append (a b : List MirrorWrite) :
    fileWritePaths (a ++ b) = fileWritePaths a ++ fileWritePaths b := by
  induction a with
  | nil => rfl
  | cons w rest ih => cases w <;> simp [fileWritePaths, ih]

theorem sharedSplit_append (r x : List String) :
    sharedSplit r (r ++ x) = ([], x) := by
  induction r with
  | nil => cases x <;> rfl
  | cons a as ih => simp [sharedSplit, ih]

theorem pathRelative_append (r x : List String) :
    pathRelative r (r ++ x) = joinSlash x := by
  simp [pathRelative, sharedSplit_append]

theorem getLastD_append_single (l : List String) (a d : String) :
    (l ++ [a]).getLastD d = a := by
  induction l with
  | nil => rfl
  | cons b bs ih => simp [List.getLastD, ih]

end AiCoderHelper

namespace AiCoderHelper

/-- C2: for every file written into the mirror, the destination content is
the original text wrapped by a leading comment block whose lines carry the
project name, file name, file size in bytes, last-modified timestamp,
language label, hierarchy joined by the separator, and the relative path,
plus a trailing end-of-file comment carrying the same relative path. -/
theorem c2_mirrored_content_is_wrapped_original (m : FileMetadata)
    (c : String) :
    ∃ header,
      copyFileWithMetadataComments c m =
        header ++ ("\n" ++ c ++ ("\n/* End of file: " ++ m.filePath ++ " */")) ∧
      (∃ u v, header = u ++ ((" * Project Name: " ++ (m.repoName ++ "\n")) ++ v)) ∧
      (∃ u v, header = u ++ ((" * File Name: " ++ (m.fileName ++ "\n")) ++ v)) ∧
      (∃ u v, header = u ++ ((" * File Size: " ++ (toString m.fileSize ++ " bytes\n")) ++ v)) ∧
      (∃ u v, header = u ++ ((" * Last Modified: " ++ (m.lastModified ++ "\n")) ++ v)) ∧
      (∃ u v, header = u ++ ((" * Language: " ++ (m.language ++ "\n")) ++ v)) ∧
      (∃ u v, header = u ++ ((" * Hierarchy: " ++ (joinSep " > " m.hierarchy ++ "\n")) ++ v)) ∧
      ∃ u v, header = u ++ ((" * Start of file: " ++ (m.filePath ++ "\n")) ++ v) := by
  refine ⟨metadataComment m, rfl, ?_, ?_, ?_, ?_, ?_, ?_, ?_⟩
  · exact ⟨"\n/*\n",
      (" * File Name: " ++ (m.fileName ++ "\n")) ++
      ((" * File Size: " ++ (toString m.fileSize ++ " bytes\n")) ++
      ((" * Last Modified: " ++ (m.lastModified ++ "\n")) ++
      ((" * Language: " ++ (m.language ++ "\n")) ++
      ((" * Hierarchy: " ++ (joinSep " > " m.hierarchy ++ "\n")) ++
      ((" * Start of file: " ++ (m.filePath ++ "\n")) ++ " */"))))),
      by simp [metadataComment, String.append_assoc]⟩
  · exact ⟨"\n/*\n" ++ (" * Project Name: " ++ (m.repoName ++ "\n")),
      (" * File Size: " ++ (toString m.fileSize ++ " bytes\n")) ++
      ((" * Last Modified: " ++ (m.lastModified ++ "\n")) ++
      ((" * Language: " ++ (m.language ++ "\n")) ++
      ((" * Hierarchy: " ++ (joinSep " > " m.hierarchy ++ "\n")) ++
      ((" * Start of file: " ++ (m.filePath ++ "\n")) ++ " */")))),
      by simp [metadataComment, String.append_assoc]⟩
  · exact ⟨"\n/*\n" ++ ((" * Project Name: " ++ (m.repoName ++ "\n")) ++
      (" * File Name: " ++ (m.fileName ++ "\n"))),
      (" * Last Modified: " ++ (m.lastModified ++ "\n")) ++
      ((" * Language: " ++ (m.language ++ "\n")) ++
      ((" * Hierarchy: " ++ (joinSep " > " m.hierarchy ++ "\n")) ++
      ((" * Start of file: " ++ (m.filePath ++ "\n")) ++ " */"))),
      by simp [metadataComment, String.append_assoc]⟩
  · exact ⟨"\n/*\n" ++ ((" * Project Name: " ++ (m.repoName ++ "\n")) ++
      ((" * File Name: " ++ (m.fileName ++ "\n")) ++
      (" * File Size: " ++ (toString m.fileSize ++ " bytes\n")))),
      (" * Language: " ++ (m.language ++ "\n")) ++
      ((" * Hierarchy: " ++ (joinSep " > " m.hierarchy ++ "\n")) ++
      ((" * Start of file: " ++ (m.filePath ++ "\n")) ++ " */")),
      by simp [metadataComment, String.append_assoc]⟩
  · exact ⟨"\n/*\n" ++ ((" * Project Name: " ++ (m.repoName ++ "\n")) ++
      ((" * File Name: " ++ (m.fileName ++ "\n")) ++
      ((" * File Size: " ++ (toString m.fileSize ++ " bytes\n")) ++
      (" * Last Modified: " ++ (m.lastModified ++ "\n"))))),
      (" * Hierarchy: " ++ (joinSep " > " m.hierarchy ++ "\n")) ++
      ((" * Start of file: " ++ (m.filePath ++ "\n")) ++ " */"),
      by simp [metadataComment, String.append_assoc]⟩
  · exact ⟨"\n/*\n" ++ ((" * Project Name: " ++ (m.repoName ++ "\n")) ++
      ((" * File Name: " ++ (m.fileName ++ "\n")) ++
      ((" * File Size: " ++ (toString m.fileSize ++ " bytes\n")) ++
      ((" * Last Modified: " ++ (m.lastModified ++ "\n")) ++
      (" * Language: " ++ (m.language ++ "\n")))))),
      (" * Start of file: " ++ (m.filePath ++ "\n")) ++ " */",
      by simp [metadataComment, String.append_assoc]⟩
  · exact ⟨"\n/*\n" ++ ((" * Project Name: " ++ (m.repoName ++ "\n")) ++
      ((" * File Name: " ++ (m.fileName ++ "\n")) ++
      ((" * File Size: " ++ (toString m.fileSize ++ " bytes\n")) ++
      ((" * Last Modified: " ++ (m.lastModified ++ "\n")) ++
      ((" * Language: " ++ (m.language ++ "\n")) ++
      (" * Hierarchy: " ++ (joinSep " > " m.hierarchy ++ "\n"))))))),
      " */",
      by simp [metadataComment, String.append_assoc]⟩

/-- C3: a directory whose name begins with a dot is skipped entirely by both
traversals, whatever the ignore predicate is: the mirror walk emits no write
for it or anything beneath it, and the catalog walk leaves its state
untouched. -/
theorem c3_hidden_dir_fully_skipped (ign : String → Bool)
    (cwd srcDir destDir dirPath currentPath : List String)
    (repoName name : String) (children : FSList) (st : TravState)
    (h : startsWithDot name = true) :
    mirrorVisit ign cwd repoName srcDir destDir (.dir name children) = [] ∧
    traverseVisit ign cwd repoName dirPath currentPath (.dir name children)
      st = st := by
  constructor
  · simp [mirrorVisit, h]
  · simp [traverseVisit, h]

/-- Witness for c3_hidden_dir_fully_skipped at a concrete dot-git directory
holding one file. -/
theorem c3_hidden_dir_fully_skipped_witness :
    startsWithDot ".git" = true ∧
    (mirrorVisit (fun _ => false) [] "r" [] []
        (.dir ".git" (.cons (.file "config" "x" 1 "t" true) .nil)) = [] ∧
     traverseVisit (fun _ => false) [] "r" [] []
        (.dir ".git" (.cons (.file "config" "x" 1 "t" true) .nil)) ⟨[], 0⟩
       = ⟨[], 0⟩) :=
  ⟨by decide,
   c3_hidden_dir_fully_skipped (fun _ => false) [] [] [] [] [] "r" ".git"
     (.cons (.file "config" "x" 1 "t" true) .nil) ⟨[], 0⟩ (by decide)⟩

/-- C4: at a file whose stat fails inside collectFileMetadata, the code
writes nothing into the mirror and keeps processing siblings, but it does
not omit the file from the catalog: the undefined result is pushed as an
entry (serialized as null), and the only counter, fileCount, counts the file
as processed; no skipped-file counter exists. -/
theorem c4_stat_failure_pushes_null_entry :
    (traverseVisit (fun _ => false) [] "repo" [] []
        (.file "f.txt" "x" 3 "t" false) ⟨[], 0⟩ = ⟨[none], 1⟩) ∧
    mirrorVisit (fun _ => false) [] "repo" [] []
        (.file "f.txt" "x" 3 "t" false) = [] ∧
    (traverseList (fun _ => false) [] "repo" [] []
        (.cons (.file "f.txt" "x" 3 "t" false)
          (.cons (.file "ok.txt" "y" 2 "t" true) .nil))
        ⟨[], 0⟩).allMetadata.map Option.isSome = [false, true] := by
  refine ⟨by decide, by decide, by decide⟩

/-- C6 counterexample: in a run whose process working directory differs from
the traversal root, the filePath recorded for a root-level file f.txt is not
the root-relative path f.txt but the cwd-relative one. -/
theorem c6_filePath_follows_cwd_not_root :
    ((collectCodebaseMetadata (fun _ => false) ["cwd"] "r" ["root"]
        (.cons (.file "f.txt" "x" 1 "t" true) .nil)).allMetadata.map
        (Option.map FileMetadata.filePath) = [some "../root/f.txt"]) ∧
    ("../root/f.txt" : String) ≠ "f.txt" := by
  refine ⟨by decide, by decide⟩

/-- C6 amended: filePath is computed relative to the process working
directory; when that directory is the traversal root, the recorded filePath
of a file under the root is its root-relative path. -/
theorem c6_filePath_root_relative_when_cwd_is_root (root rel : List String)
    (size : Nat) (mtime repoName : String) :
    (collectFileMetadata root (root ++ rel) size mtime true repoName).map
        FileMetadata.filePath = some (joinSlash rel) := by
  simp [collectFileMetadata, pathRelative_append]

/-- C7: the hierarchy field equals the filePath field split on the
separator with its last component dropped; at relative path a/b/c.txt the
hierarchy is the two directory names, and at a root-level file it is
empty. -/
theorem c7_hierarchy_is_filePath_minus_last (cwd fullPath : List String)
    (size : Nat) (mtime repoName : String) :
    ((collectFileMetadata cwd fullPath size mtime true repoName).map
        (fun m => m.hierarchy)
      = (collectFileMetadata cwd fullPath size mtime true repoName).map
        (fun m => (splitSlash m.filePath).dropLast)) ∧
    ((collectFileMetadata [] ["a", "b", "c.txt"] 7 "t" true "r").map
        (fun m => m.hierarchy) = some ["a", "b"]) ∧
    (collectFileMetadata [] ["d.txt"] 7 "t" true "r").map
        (fun m => m.hierarchy) = some [] := by
  refine ⟨by simp [collectFileMetadata], by decide, by decide⟩

/-- C8 counterexample: the custom exclusion list added to every compiled
ruleset has five entries, not four: it also contains the public directory
name, which is none of the four entries the claim enumerates. -/
theorem c8_builtin_list_has_five_entries :
    builtinIgnoreEntries.length = 5 ∧
    "public" ∈ builtinIgnoreEntries ∧
    "public" ∉ (["mirror_repo", "node_modules", "repo_metadata.json",
      "scrape_repo.js"] : List String) := by
  refine ⟨by decide, by decide, by decide⟩

/-- C8 amended: the built-in exclusion list consists of exactly five
entries - the mirror output directory name, the dependency-install directory
name, the public directory name, the entry-point filename and the generated
catalog filename - and beyond them the compiled ruleset holds only the lines
of the user ignore file. -/
theorem c8_ruleset_is_user_lines_plus_five_builtins (r : GitignoreRead)
    (l : List String) (h : loadGitignore r = .ok l) :
    (∀ p ∈ (["mirror_repo", "node_modules", "public", "scrape_repo.js",
        "repo_metadata.json"] : List String), p ∈ l) ∧
    ∀ p ∈ l, p ∈ userLines r ∨
      p ∈ (["mirror_repo", "node_modules", "public", "scrape_repo.js",
        "repo_metadata.json"] : List String) := by
  cases r <;>
    (simp only [loadGitignore, Except.ok.injEq] at h
     subst h
     refine ⟨?_, ?_⟩ <;>
       simp [builtinIgnoreEntries, scriptFileName, metadataFileName,
         userLines])

/-- Witness for c8_ruleset_is_user_lines_plus_five_builtins at the
missing-file read outcome. -/
theorem c8_ruleset_is_user_lines_plus_five_builtins_witness :
    loadGitignore .enoent = .ok builtinIgnoreEntries ∧
    ((∀ p ∈ (["mirror_repo", "node_modules", "public", "scrape_repo.js",
        "repo_metadata.json"] : List String), p ∈ builtinIgnoreEntries) ∧
     ∀ p ∈ builtinIgnoreEntries, p ∈ userLines .enoent ∨
       p ∈ (["mirror_repo", "node_modules", "public", "scrape_repo.js",
         "repo_metadata.json"] : List String)) :=
  ⟨rfl, c8_ruleset_is_user_lines_plus_five_builtins .enoent
    builtinIgnoreEntries rfl⟩

/-- C9: a missing ignore-pattern file is tolerated: loadGitignore still
succeeds and the compiled ruleset holds exactly the built-in entries. -/
theorem c9_missing_ignore_file_not_an_error :
    loadGitignore .enoent = .ok builtinIgnoreEntries := rfl

/-- C10: the hidden-name skip applies only to directories: a file whose
name begins with a dot and which the ignore predicate does not match is
written into the mirror and pushed onto the catalog like any other file. -/
theorem c10_hidden_file_still_processed (ign : String → Bool)
    (cwd srcDir destDir dirPath currentPath : List String)
    (repoName name content : String) (size : Nat) (mtime : String)
    (st : TravState)
    (hdot : startsWithDot name = true) (h1 : ign name = false)
    (h2 : ign (pathRelative dirPath (currentPath ++ [name])) = false) :
    (∃ w, mirrorVisit ign cwd repoName srcDir destDir
        (.file name content size mtime true)
        = [.fileWrite (destDir ++ [name]) w]) ∧
    ∃ m, traverseVisit ign cwd repoName dirPath currentPath
        (.file name content size mtime true) st
        = ⟨st.allMetadata ++ [some m], st.fileCount + 1⟩ ∧
      m.fileName = name := by
  constructor
  · refine ⟨copyFileWithMetadataComments content
        ⟨(srcDir ++ [name]).getLastD "", pathRelative cwd (srcDir ++ [name]),
         mtime, size, getLanguage (srcDir ++ [name]),
         (splitSlash (pathRelative cwd (srcDir ++ [name]))).dropLast,
         repoName⟩, ?_⟩
    simp [mirrorVisit, h1, collectFileMetadata]
  · refine ⟨⟨(currentPath ++ [name]).getLastD "",
        pathRelative cwd (currentPath ++ [name]), mtime, size,
        getLanguage (currentPath ++ [name]),
        (splitSlash (pathRelative cwd (currentPath ++ [name]))).dropLast,
        repoName⟩, ?_, ?_⟩
    · simp [traverseVisit, h2, collectFileMetadata]
    · simp [getLastD_append_single]

/-- Witness for c10_hidden_file_still_processed at a concrete dot-env
file. -/
theorem c10_hidden_file_still_processed_witness :
    startsWithDot ".env" = true ∧
    ((∃ w, mirrorVisit (fun _ => false) [] "r" [] []
        (.file ".env" "x" 2 "t" true) = [.fileWrite [".env"] w]) ∧
     ∃ m, traverseVisit (fun _ => false) [] "r" [] []
        (.file ".env" "x" 2 "t" true) ⟨[], 0⟩
        = ⟨[] ++ [some m], 0 + 1⟩ ∧ m.fileName = ".env") :=
  ⟨by decide,
   c10_hidden_file_still_processed (fun _ => false) [] [] [] [] [] "r"
     ".env" "x" 2 "t" ⟨[], 0⟩ (by decide) (by decide) (by decide)⟩

end AiCoderHelper

namespace AiCoderHelper

mutual
/-- Reference walker following the spec wording of the DirectoryMirror
algorithm: identical to mirrorVisit except that the path tested against the
ignore predicate is computed relative to the traversal root rootDir, not
relative to the directory currently being walked. -/
def mirrorVisitRootRel (ign : String → Bool) (cwd : List String)
    (repoName : String) (rootDir srcDir destDir : List String) :
    FSEntry → List MirrorWrite
  | .file name content size mtime statOk =>
    if ign (pathRelative rootDir (srcDir ++ [name])) then []
    else
      match collectFileMetadata cwd (srcDir ++ [name]) size mtime statOk
          repoName with
      | some m =>
        [.fileWrite (destDir ++ [name]) (copyFileWithMetadataComments content m)]
      | none => []
  | .dir name children =>
    if startsWithDot name || ign (pathRelative rootDir (srcDir ++ [name]))
    then []
    else
      .mkdir (destDir ++ [name]) ::
        mirrorListRootRel ign cwd repoName rootDir (srcDir ++ [name])
          (destDir ++ [name]) children
/-- mirrorVisitRootRel over a listing. -/
def mirrorListRootRel (ign : String → Bool) (cwd : List String)
    (repoName : String) (rootDir srcDir destDir : List String) :
    FSList → List MirrorWrite
  | .nil => []
  | .cons e es =>
    mirrorVisitRootRel ign cwd repoName rootDir srcDir destDir e ++
      mirrorListRootRel ign cwd repoName rootDir srcDir destDir es
end

/-- C5 counterexample: with the ignore predicate of a pattern file holding
the single slash pattern a/b, the mirror walk does not behave as if tested
paths were root-relative: the actual walk keeps the file b inside the
directory a, while the root-relative reference walk skips it. -/
theorem c5_tested_path_not_root_relative :
    mirrorList (fun s => s == "a/b") [] "r" [] []
        (.cons (.dir "a" (.cons (.file "b" "x" 1 "t" true) .nil)) .nil)
      ≠ mirrorListRootRel (fun s => s == "a/b") [] "r" [] [] []
        (.cons (.dir "a" (.cons (.file "b" "x" 1 "t" true) .nil)) .nil) := by
  decide

/-- C5 amended: at every depth the path tested against the ignore predicate
in the mirror walk is the path of the child relative to the directory
currently being walked, which is its bare name; hence on trees whose entry
names are separator-free the walk cannot distinguish two ignore predicates
that agree on separator-free strings, however much they differ on deeper
relative paths. -/
theorem c5_mirror_tests_only_entry_names (ign ignB : String → Bool)
    (hAgree : ∀ s, s.data.contains '/' = false → ign s = ignB s)
    (cwd srcDir destDir : List String) (repoName : String) (l : FSList)
    (hNames : FSList.namesOk l = true) :
    createMirrorDirectoryStructure ign cwd repoName srcDir destDir l
      = createMirrorDirectoryStructure ignB cwd repoName srcDir destDir l := by
  have main := fs_mutual_ind
    (fun e => FSEntry.namesOk e = true → ∀ sD dD : List String,
      mirrorVisit ign cwd repoName sD dD e = mirrorVisit ignB cwd repoName sD dD e)
    (fun l2 => FSList.namesOk l2 = true → ∀ sD dD : List String,
      mirrorList ign cwd repoName sD dD l2 = mirrorList ignB cwd repoName sD dD l2)
    ?hfile ?hdir ?hnil ?hcons
  case hfile =>
    intro n c s m ok h sD dD
    have h1 : n.data.contains '/' = false := by
      simpa [FSEntry.namesOk] using h
    simp [mirrorVisit, hAgree n h1]
  case hdir =>
    intro n cs ih h sD dD
    have h1 : n.data.contains '/' = false ∧ FSList.namesOk cs = true := by
      simpa [FSEntry.namesOk] using h
    simp [mirrorVisit, hAgree n h1.1, ih h1.2]
  case hnil =>
    intro _ sD dD
    rfl
  case hcons =>
    intro e es ihe ihes h sD dD
    have h1 : FSEntry.namesOk e = true ∧ FSList.namesOk es = true := by
      simpa [FSList.namesOk] using h
    simp [mirrorList, ihe h1.1, ihes h1.2]
  simp [createMirrorDirectoryStructure, main.2 l hNames srcDir destDir]

/-- Witness for c5_mirror_tests_only_entry_names: a predicate matching only
the name a.js and one additionally matching the root-relative path q/r
produce the same mirror of a tree that holds exactly the file r inside the
directory q. -/
theorem c5_mirror_tests_only_entry_names_witness :
    FSList.namesOk
        (.cons (.dir "q" (.cons (.file "r" "x" 1 "t" true) .nil)) .nil)
      = true ∧
    createMirrorDirectoryStructure (fun t => t == "a.js") [] "repo" [] []
        (.cons (.dir "q" (.cons (.file "r" "x" 1 "t" true) .nil)) .nil)
      = createMirrorDirectoryStructure
          (fun t => t == "a.js" || t == "q/r") [] "repo" [] []
          (.cons (.dir "q" (.cons (.file "r" "x" 1 "t" true) .nil)) .nil) := by
  refine ⟨by decide, ?_⟩
  refine c5_mirror_tests_only_entry_names _ _ (fun s hs => ?_) [] [] [] "repo"
    _ (by decide)
  show (s == "a.js") = (s == "a.js" || s == "q/r")
  have hq : (s == "q/r") = false := by
    cases hb : s == "q/r" with
    | false => rfl
    | true =>
      have hEq := eq_of_beq hb
      subst hEq
      exact absurd hs (by decide)
  rw [hq, Bool.or_false]

end AiCoderHelper

namespace AiCoderHelper

/-- Correspondence between the catalog walk and the mirror walk when the
ignore verdict of every root-relative child path agrees with the verdict of
the bare child name and every stat succeeds: at any position of the
recursion, the entries the catalog walk appends are, in order, exactly the
cwd-relative paths of the files the mirror walk writes. -/
theorem catalog_mirror_correspondence (ign : String → Bool)
    (cwd r : List String) (repoName : String)
    (hIgn : ∀ pre n, ign (joinSlash (pre ++ [n])) = ign n) :
    ∀ l2 : FSList, FSList.statAll l2 = true → ∀ relDirs (st : TravState),
      (traverseList ign cwd repoName r (r ++ relDirs) l2 st).allMetadata.map
          (Option.map FileMetadata.filePath)
        = st.allMetadata.map (Option.map FileMetadata.filePath)
          ++ (fileWritePaths
              (mirrorList ign cwd repoName (r ++ relDirs) relDirs l2)).map
              (fun p => some (pathRelative cwd (r ++ p))) := by
  refine (fs_mutual_ind
    (fun e => FSEntry.statAll e = true → ∀ relDirs (st : TravState),
      (traverseVisit ign cwd repoName r (r ++ relDirs) e st).allMetadata.map
          (Option.map FileMetadata.filePath)
        = st.allMetadata.map (Option.map FileMetadata.filePath)
          ++ (fileWritePaths
              (mirrorVisit ign cwd repoName (r ++ relDirs) relDirs e)).map
              (fun p => some (pathRelative cwd (r ++ p))))
    (fun l2 => FSList.statAll l2 = true → ∀ relDirs (st : TravState),
      (traverseList ign cwd repoName r (r ++ relDirs) l2 st).allMetadata.map
          (Option.map FileMetadata.filePath)
        = st.allMetadata.map (Option.map FileMetadata.filePath)
          ++ (fileWritePaths
              (mirrorList ign cwd repoName (r ++ relDirs) relDirs l2)).map
              (fun p => some (pathRelative cwd (r ++ p))))
    ?hfile ?hdir ?hnil ?hcons).2
  case hfile =>
    intro n c s m ok h relDirs st
    have hok : ok = true := by simpa [FSEntry.statAll] using h
    subst hok
    have hcond : ign (pathRelative r (r ++ (relDirs ++ [n]))) = ign n := by
      rw [pathRelative_append, hIgn]
    cases hn : ign n with
    | true =>
      simp [traverseVisit, mirrorVisit, List.append_assoc, hcond, hn,
        fileWritePaths]
    | false =>
      simp [traverseVisit, mirrorVisit, List.append_assoc, hcond, hn,
        collectFileMetadata, fileWritePaths]
  case hdir =>
    intro n cs ih h relDirs st
    have hcs : FSList.statAll cs = true := by
      simpa [FSEntry.statAll] using h
    cases hd : startsWithDot n with
    | true =>
      simp [traverseVisit, mirrorVisit, hd, fileWritePaths]
    | false =>
      have hcond : ign (pathRelative r (r ++ (relDirs ++ [n]))) = ign n := by
        rw [pathRelative_append, hIgn]
      cases hn : ign n with
      | true =>
        simp [traverseVisit, mirrorVisit, List.append_assoc, hd, hcond, hn,
          fileWritePaths]
      | false =>
        have ihh := ih hcs (relDirs ++ [n]) st
        simp only [List.append_assoc] at ihh
        simp [traverseVisit, mirrorVisit, List.append_assoc, hd, hcond, hn,
          fileWritePaths]
        exact ihh
  case hnil =>
    intro _ relDirs st
    simp [traverseList, mirrorList, fileWritePaths]
  case hcons =>
    intro e es ihe ihes h relDirs st
    have h2 : FSEntry.statAll e = true ∧ FSList.statAll es = true := by
      simpa [FSList.statAll] using h
    simp only [traverseList, mirrorList, fileWritePaths_append,
      List.map_append]
    rw [ihes h2.2 relDirs _, ihe h2.1 relDirs st, List.append_assoc]

/-- C1 amended: whenever every file of the tree can be statted and the
ignore verdict of each root-relative child path agrees with the verdict of
the bare child name (the mirror walk tests bare names, the catalog walk
root-relative paths), the catalog and the mirror select exactly the same
files: the catalog holds one entry per mirrored file, in the same order,
and the filePath of the i-th entry is the cwd-relative path of the i-th
mirrored file; in particular the entry count equals the mirrored-file
count. -/
theorem c1_catalog_matches_mirror (ign : String → Bool) (cwd r : List String)
    (repoName : String) (l : FSList)
    (hIgn : ∀ pre n, ign (joinSlash (pre ++ [n])) = ign n)
    (hStat : FSList.statAll l = true) :
    ((collectCodebaseMetadata ign cwd repoName r l).allMetadata.map
        (Option.map FileMetadata.filePath)
      = (fileWritePaths
          (createMirrorDirectoryStructure ign cwd repoName r [] l)).map
          (fun p => some (pathRelative cwd (r ++ p)))) ∧
    (collectCodebaseMetadata ign cwd repoName r l).allMetadata.length
      = (fileWritePaths
          (createMirrorDirectoryStructure ign cwd repoName r [] l)).length := by
  have hmain := catalog_mirror_correspondence ign cwd r repoName hIgn l hStat
    [] ⟨[], 0⟩
  simp only [List.append_nil] at hmain
  have hfirst :
      (collectCodebaseMetadata ign cwd repoName r l).allMetadata.map
          (Option.map FileMetadata.filePath)
        = (fileWritePaths
            (createMirrorDirectoryStructure ign cwd repoName r [] l)).map
            (fun p => some (pathRelative cwd (r ++ p))) := by
    simpa [collectCodebaseMetadata, createMirrorDirectoryStructure,
      fileWritePaths] using hmain
  refine ⟨hfirst, ?_⟩
  have hlen := congrArg List.length hfirst
  simpa [List.length_map] using hlen

/-- Witness for c1_catalog_matches_mirror on a two-level tree with a
constantly false ignore predicate. -/
theorem c1_catalog_matches_mirror_witness :
    FSList.statAll
        (.cons (.dir "s" (.cons (.file "a.js" "x" 1 "t" true) .nil))
          (.cons (.file "b.md" "y" 2 "u" true) .nil))
      = true ∧
    (((collectCodebaseMetadata (fun _ => false) [] "repo" ["root"]
        (.cons (.dir "s" (.cons (.file "a.js" "x" 1 "t" true) .nil))
          (.cons (.file "b.md" "y" 2 "u" true) .nil))).allMetadata.map
        (Option.map FileMetadata.filePath)
      = (fileWritePaths
          (createMirrorDirectoryStructure (fun _ => false) [] "repo" ["root"]
            [] (.cons (.dir "s" (.cons (.file "a.js" "x" 1 "t" true) .nil))
              (.cons (.file "b.md" "y" 2 "u" true) .nil)))).map
          (fun p => some (pathRelative [] (["root"] ++ p)))) ∧
     (collectCodebaseMetadata (fun _ => false) [] "repo" ["root"]
        (.cons (.dir "s" (.cons (.file "a.js" "x" 1 "t" true) .nil))
          (.cons (.file "b.md" "y" 2 "u" true) .nil))).allMetadata.length
      = (fileWritePaths
          (createMirrorDirectoryStructure (fun _ => false) [] "repo" ["root"]
            [] (.cons (.dir "s" (.cons (.file "a.js" "x" 1 "t" true) .nil))
              (.cons (.file "b.md" "y" 2 "u" true) .nil)))).length) :=
  ⟨by decide,
   c1_catalog_matches_mirror (fun _ => false) [] ["root"] "repo"
     (.cons (.dir "s" (.cons (.file "a.js" "x" 1 "t" true) .nil))
       (.cons (.file "b.md" "y" 2 "u" true) .nil))
     (fun _ _ => rfl) (by decide)⟩

/-- C1 counterexample: with the ignore predicate of the single slash
pattern a/b, the catalog walk skips the file b inside the directory a while
the mirror walk keeps it, so the catalog has one entry but two files are
written into the mirror. -/
theorem c1_counts_can_differ :
    ((collectCodebaseMetadata (fun s => s == "a/b") [] "r" []
        (.cons (.dir "a" (.cons (.file "b" "x" 1 "t" true)
          (.cons (.file "c" "y" 1 "t" true) .nil))) .nil)).allMetadata.length
      = 1) ∧
    (fileWritePaths
        (createMirrorDirectoryStructure (fun s => s == "a/b") [] "r" [] []
          (.cons (.dir "a" (.cons (.file "b" "x" 1 "t" true)
            (.cons (.file "c" "y" 1 "t" true) .nil))) .nil))).length
      = 2 := by
  refine ⟨by decide, by decide⟩

end AiCoderHelper
